import Mathlib

/-!
Shallow embedding of the deadpool-postgres core (src/postgres/src/lib.rs):
the per-connection statement cache (`StatementCache`), the process-wide weak
registry of caches (`StatementCaches`), the pool-facing `Manager::recycle`
protocol, and the cache-aware `prepare_typed` of `ClientWrapper` and
`Transaction`.

Modelling decisions:
- `tokio_postgres::Statement` handles are opaque; we model them as `Nat`.
- `tokio_postgres::types::Type` values are compared structurally by the
  derived `Eq`/`Hash` of `StatementCacheKey`; we model a type as `Nat`
  (its OID), which preserves decidable structural equality.
- `tokio_postgres::Error` is opaque and only propagated; we model it as
  `String`.
- The underlying `tokio_postgres` client is an external collaborator; we
  model it as a record of response functions (`is_closed`, `simple_query`,
  `prepare_typed`), exactly the surface `lib.rs` consumes.  Functions that
  perform I/O in Rust return `Except` here; the extra `Nat`/`List String`
  components of results count the calls made to the underlying client,
  mirroring the "counting stub" the spec's testable properties describe.
- `Cow<'a, str>` / `Cow<'a, [Type]>` are modelled by an explicit `Cow`
  inductive with `borrowed`/`owned` constructors; Rust's derived
  `PartialEq`/`Hash` on `Cow` compare the dereferenced contents, which the
  key equality `StatementCacheKey.beq` reproduces.
- `RwLock`/`Mutex`/`AtomicUsize` wrap purely sequential state here: stateful
  methods become state-passing functions.  The `usize` entry counter is
  modelled as `Nat`; overflow past `2^64` entries is not modelled (the map
  itself can never hold that many live entries).
- `HashMap<StatementCacheKey, Statement>` is modelled as an association
  list holding at most one entry per key (the invariant `HashMap`
  maintains): `insert` replaces the value when the key is present and
  prepends otherwise, `remove` erases the matching entry, `get` finds it.
-/

namespace DeadpoolPostgres

/-- Opaque prepared-statement handle (`tokio_postgres::Statement`). -/
abbrev Statement := Nat

/-- Structural identity of a `tokio_postgres::types::Type` (its OID). -/
abbrev PgType := Nat

/-- Opaque `tokio_postgres::Error` propagated from the underlying client. -/
abbrev Error := String

/-- Model of Rust's `Cow<'a, T>`: a value that is either borrowed or owned.
`StatementCache.get` builds borrowed keys while `insert`/`remove` build owned
ones; derived equality compares the dereferenced contents. -/
inductive Cow (α : Type) where
  | borrowed : α → Cow α
  | owned : α → Cow α
deriving Repr, DecidableEq

/-- Rust's `Deref` for `Cow`: the underlying contents. -/
def Cow.deref {α : Type} : Cow α → α
  | .borrowed a => a
  | .owned a => a

/-- Key of the statement cache (`StatementCacheKey<'a>` in lib.rs):
query text and parameter type signature, each behind a `Cow`. -/
structure StatementCacheKey where
  query : Cow String
  types : Cow (List PgType)
deriving Repr, DecidableEq

/-- The derived `PartialEq`/`Eq` of `StatementCacheKey`: Rust derives
field-wise equality, and `Cow`'s `PartialEq` compares dereferenced contents,
so two keys are equal iff their query texts and type lists agree, regardless
of borrowed/owned status.  (`Hash` is consistent with this equality for the
same reason; the map model below only needs equality.) -/
def StatementCacheKey.beq (k1 k2 : StatementCacheKey) : Bool :=
  k1.query.deref == k2.query.deref && k1.types.deref == k2.types.deref

/-- The content a key denotes, with the `Cow` indirection stripped. -/
def StatementCacheKey.repr (k : StatementCacheKey) : String × List PgType :=
  (k.query.deref, k.types.deref)

/-- Per-connection statement cache (`StatementCache` in lib.rs):
the `RwLock<HashMap<..>>` map and the `AtomicUsize` size counter.
`size` is the counter's current value (what the `size()` method loads),
maintained alongside the map, not derived from it. -/
structure StatementCache where
  map : List (StatementCacheKey × Statement)
  size : Nat
deriving Repr, DecidableEq

/-- Lookup in the `HashMap` model: the value of the first (and, by the map
invariant, only) entry whose key equals `k`. -/
def mapFind (m : List (StatementCacheKey × Statement)) (k : StatementCacheKey) :
    Option Statement :=
  (m.find? (fun p => StatementCacheKey.beq p.1 k)).map Prod.snd

/-- `StatementCache::new`: empty map, zero counter. -/
def StatementCache.new : StatementCache :=
  { map := [], size := 0 }

/-- `StatementCache::clear`: empties the map and stores 0 in the counter. -/
def StatementCache.clear (_c : StatementCache) : StatementCache :=
  { map := [], size := 0 }

/-- `StatementCache::get`: lookup with a borrowed key (no allocation of the
key data in Rust); returns a clone of the cached statement. -/
def StatementCache.get (c : StatementCache) (query : String) (types : List PgType) :
    Option Statement :=
  mapFind c.map { query := Cow.borrowed query, types := Cow.borrowed types }

/-- `StatementCache::insert`: builds an owned key and inserts; the counter is
incremented exactly when `HashMap::insert` reports the key as previously
absent.  On overwrite the map keeps the old key and replaces the value, as
`HashMap::insert` does. -/
def StatementCache.insert (c : StatementCache) (query : String) (types : List PgType)
    (stmt : Statement) : StatementCache :=
  let key : StatementCacheKey :=
    { query := Cow.owned query, types := Cow.owned types }
  match mapFind c.map key with
  | some _ =>
      { c with map := c.map.map (fun p =>
          if StatementCacheKey.beq p.1 key then (p.1, stmt) else p) }
  | none =>
      { map := (key, stmt) :: c.map, size := c.size + 1 }

/-- `StatementCache::remove`: builds an owned key, removes the matching entry
and returns it; the counter is decremented exactly when an entry was removed.
(Rust's `fetch_sub` wraps on underflow; that situation is unreachable because
the counter matches the map size, so `Nat` subtraction is faithful.) -/
def StatementCache.remove (c : StatementCache) (query : String) (types : List PgType) :
    Option Statement × StatementCache :=
  let key : StatementCacheKey :=
    { query := Cow.owned query, types := Cow.owned types }
  match mapFind c.map key with
  | some stmt =>
      (some stmt,
        { map := c.map.eraseP (fun p => StatementCacheKey.beq p.1 key),
          size := c.size - 1 })
  | none => (none, c)

/-- Model of the `tokio_postgres::Client` surface consumed by lib.rs:
`is_closed`, `simple_query` (used by the recycling probe) and
`prepare_typed` (used on cache misses).  Responses are fixed functions,
making the client a deterministic stub. -/
structure PgClient where
  is_closed : Bool
  simple_query : String → Except Error Unit
  prepare_typed : String → List PgType → Except Error Statement

/-- Model of the `tokio_postgres::Transaction` surface consumed by lib.rs:
only `prepare_typed` is needed by the cached prepare path. -/
structure PgTransaction where
  prepare_typed : String → List PgType → Except Error Statement

/-- Recycling policy (`RecyclingMethod` in src/postgres/src/config.rs, which
is declared by lib.rs but whose file is not part of the sources here). -/
inductive RecyclingMethod where
  | fast
  | verified
  | clean
  | custom (query : String)
deriving Repr, DecidableEq

/-- Modelled from the spec: `RecyclingMethod::query` is defined in
src/postgres/src/config.rs, which is missing from the sources; per the spec,
`Fast` executes no query, `Verified` executes a lightweight no-op statement,
`Clean` executes a cleanup statement discarding temporary session state, and
`Custom` executes the caller-supplied query text. -/
def RecyclingMethod.query : RecyclingMethod → Option String
  | .fast => none
  | .verified => some ""
  | .clean => some "DISCARD ALL"
  | .custom q => some q

/-- `deadpool::managed::RecycleError` (external collaborator): either a
message produced by the manager or a wrapped backend error (`e.into()`). -/
inductive RecycleError where
  | message (msg : String)
  | backend (err : Error)
deriving Repr, DecidableEq

/-- `Manager::recycle` (lib.rs lines 270-285): fail immediately with
"Connection closed" when the client reports closed; otherwise execute the
recycling method's probe query, if any, exactly once, propagating its error.
The second component records the probe queries executed against the
underlying client, in order. -/
def Manager.recycle (method : RecyclingMethod) (client : PgClient) :
    Except RecycleError Unit × List String :=
  if client.is_closed then
    (Except.error (RecycleError.message "Connection closed"), [])
  else
    match method.query with
    | some sql =>
        match client.simple_query sql with
        | Except.ok _ => (Except.ok (), [sql])
        | Except.error e => (Except.error (RecycleError.backend e), [sql])
    | none => (Except.ok (), [])

/-- `ClientWrapper::prepare_typed` (lib.rs lines 433-442): consult the cache;
on a hit return the cached handle, on a miss call the underlying client's
`prepare_typed`, insert the fresh statement on success, and propagate the
error without caching on failure.  The statement cache is threaded as state
(in Rust the wrapper owns it behind an `Arc`); the final `Nat` counts the
calls made to the underlying client's prepare. -/
def ClientWrapper.prepare_typed (client : PgClient) (cache : StatementCache)
    (query : String) (types : List PgType) :
    Except Error Statement × StatementCache × Nat :=
  match cache.get query types with
  | some statement => (Except.ok statement, cache, 0)
  | none =>
      match client.prepare_typed query types with
      | Except.ok stmt => (Except.ok stmt, cache.insert query types stmt, 1)
      | Except.error e => (Except.error e, cache, 1)

/-- `ClientWrapper::prepare` (lib.rs lines 427-429): `prepare_typed` with an
empty type list. -/
def ClientWrapper.prepare (client : PgClient) (cache : StatementCache)
    (query : String) : Except Error Statement × StatementCache × Nat :=
  ClientWrapper.prepare_typed client cache query []

/-- `Transaction::prepare_typed` (lib.rs lines 497-506): identical logic to
the wrapper's, acting on the borrowed parent cache.  A `Transaction` holds
`statement_cache: &'a StatementCache`, a reference to the cache of the
`ClientWrapper` it was opened from (`ClientWrapper::transaction`,
`Transaction::transaction` and `TransactionBuilder::start` all pass that same
reference through), so the cache state threaded here IS the wrapper's cache
state: mutations made inside the transaction are mutations of the wrapper's
cache. -/
def Transaction.prepare_typed (txn : PgTransaction) (cache : StatementCache)
    (query : String) (types : List PgType) :
    Except Error Statement × StatementCache × Nat :=
  match cache.get query types with
  | some statement => (Except.ok statement, cache, 0)
  | none =>
      match txn.prepare_typed query types with
      | Except.ok stmt => (Except.ok stmt, cache.insert query types stmt, 1)
      | Except.error e => (Except.error e, cache, 1)

/-- `Transaction::prepare` (lib.rs lines 491-493). -/
def Transaction.prepare (txn : PgTransaction) (cache : StatementCache)
    (query : String) : Except Error Statement × StatementCache × Nat :=
  Transaction.prepare_typed txn cache query []

/-- Identity of a `StatementCache` allocation (the pointer the `Arc` and the
`Weak` refs designate). -/
abbrev CacheId := Nat

/-- The registry (`StatementCaches` in lib.rs): `Mutex<Vec<Weak<..>>>`,
modelled as the list of cache identities the weak references designate. -/
structure StatementCaches where
  caches : List CacheId
deriving Repr, DecidableEq

/-- The heap of live caches: which cache (if any) is still alive at each
identity.  `Weak::upgrade` succeeds exactly on identities present here. -/
abbrev CacheWorld := List (CacheId × StatementCache)

/-- `Weak::upgrade`: resolve a cache identity to the live cache, or fail if
the owning wrapper has been dropped. -/
def upgrade (world : CacheWorld) (id : CacheId) : Option StatementCache :=
  (world.find? (fun p => p.1 == id)).map Prod.snd

/-- `StatementCaches::attach` (lib.rs lines 299-302): push a weak reference. -/
def StatementCaches.attach (r : StatementCaches) (id : CacheId) : StatementCaches :=
  { caches := r.caches ++ [id] }

/-- `StatementCaches::detach` (lib.rs lines 303-306): retain exactly the weak
references not pointer-equal to the detached cache. -/
def StatementCaches.detach (r : StatementCaches) (id : CacheId) : StatementCaches :=
  { caches := r.caches.filter (fun sc => !(sc == id)) }

/-- One step of `StatementCaches::clear`: upgrade one weak reference and, if
the cache is still alive, clear it; a dead reference is silently skipped. -/
def clearLive (world : CacheWorld) (id : CacheId) : CacheWorld :=
  world.map (fun p => if p.1 == id then (p.1, p.2.clear) else p)

/-- `StatementCaches::clear` (lib.rs lines 309-316): iterate over every
recorded weak reference, clearing each still-resolvable cache. -/
def StatementCaches.clear (r : StatementCaches) (world : CacheWorld) : CacheWorld :=
  r.caches.foldl clearLive world

/-! ### Helper lemmas about keys and the map model -/

theorem StatementCacheKey.beq_iff_repr (k1 k2 : StatementCacheKey) :
    StatementCacheKey.beq k1 k2 = true ↔ k1.repr = k2.repr := by
  simp [StatementCacheKey.beq, StatementCacheKey.repr, Prod.ext_iff]

theorem StatementCacheKey.beq_comm (k1 k2 : StatementCacheKey) :
    StatementCacheKey.beq k1 k2 = StatementCacheKey.beq k2 k1 := by
  rw [Bool.eq_iff_iff, StatementCacheKey.beq_iff_repr, StatementCacheKey.beq_iff_repr]
  exact eq_comm

theorem StatementCacheKey.beq_congr (p : StatementCacheKey) {k1 k2 : StatementCacheKey}
    (h : k1.repr = k2.repr) :
    StatementCacheKey.beq p k1 = StatementCacheKey.beq p k2 := by
  rw [Bool.eq_iff_iff, StatementCacheKey.beq_iff_repr, StatementCacheKey.beq_iff_repr, h]

theorem mapFind_congr (m : List (StatementCacheKey × Statement))
    {k1 k2 : StatementCacheKey} (h : k1.repr = k2.repr) :
    mapFind m k1 = mapFind m k2 := by
  unfold mapFind
  have hp : (fun p : StatementCacheKey × Statement => StatementCacheKey.beq p.1 k1)
      = (fun p : StatementCacheKey × Statement => StatementCacheKey.beq p.1 k2) := by
    funext p
    exact StatementCacheKey.beq_congr p.1 h
  rw [hp]

theorem mapFind_cons (p : StatementCacheKey × Statement)
    (m : List (StatementCacheKey × Statement)) (k : StatementCacheKey) :
    mapFind (p :: m) k =
      if StatementCacheKey.beq p.1 k then some p.2 else mapFind m k := by
  cases hb : StatementCacheKey.beq p.1 k <;> simp [mapFind, List.find?_cons, hb]

theorem mapFind_replaceValue (m : List (StatementCacheKey × Statement))
    (k : StatementCacheKey) (v : Statement) :
    mapFind (m.map (fun p => if StatementCacheKey.beq p.1 k then (p.1, v) else p)) k
      = (mapFind m k).map (fun _ => v) := by
  induction m with
  | nil => rfl
  | cons p m ih =>
      cases hb : StatementCacheKey.beq p.1 k with
      | true =>
          simp only [List.map_cons, hb, if_pos]
          rw [mapFind_cons, mapFind_cons]
          simp [hb]
      | false =>
          simp only [List.map_cons, hb, if_neg, Bool.false_eq_true, not_false_iff]
          rw [mapFind_cons, mapFind_cons]
          simp only [hb, Bool.false_eq_true, if_false]
          exact ih

theorem StatementCache.get_eq_mapFind_owned (c : StatementCache) (query : String)
    (types : List PgType) :
    c.get query types = mapFind c.map ⟨Cow.owned query, Cow.owned types⟩ :=
  mapFind_congr c.map rfl

theorem StatementCache.get_insert_self (c : StatementCache) (query : String)
    (types : List PgType) (stmt : Statement) :
    (c.insert query types stmt).get query types = some stmt := by
  rw [StatementCache.get_eq_mapFind_owned]
  cases hm : mapFind c.map ⟨Cow.owned query, Cow.owned types⟩ with
  | some s0 =>
      simp only [StatementCache.insert, hm]
      rw [mapFind_replaceValue, hm]
      rfl
  | none =>
      simp only [StatementCache.insert, hm]
      rw [mapFind_cons]
      simp [StatementCacheKey.beq]

theorem StatementCache.insert_size (c : StatementCache) (query : String)
    (types : List PgType) (stmt : Statement) :
    (c.insert query types stmt).size =
      if (c.get query types).isSome then c.size else c.size + 1 := by
  rw [StatementCache.get_eq_mapFind_owned]
  cases hm : mapFind c.map ⟨Cow.owned query, Cow.owned types⟩ with
  | some s0 => simp [StatementCache.insert, hm]
  | none => simp [StatementCache.insert, hm]

theorem StatementCache.remove_fst (c : StatementCache) (query : String)
    (types : List PgType) :
    (c.remove query types).1 = c.get query types := by
  rw [StatementCache.get_eq_mapFind_owned]
  cases hm : mapFind c.map ⟨Cow.owned query, Cow.owned types⟩ with
  | some s0 => simp [StatementCache.remove, hm]
  | none => simp [StatementCache.remove, hm]

/-- Well-formedness of a reachable cache: the map holds pairwise distinct
keys (the `HashMap` invariant) and the counter equals the map's size. -/
def StatementCache.WF (c : StatementCache) : Prop :=
  c.map.Pairwise (fun p1 p2 => StatementCacheKey.beq p1.1 p2.1 = false) ∧
  c.size = c.map.length

theorem StatementCache.WF_new : StatementCache.new.WF :=
  ⟨List.Pairwise.nil, rfl⟩

theorem StatementCache.WF_clear (c : StatementCache) : c.clear.WF :=
  ⟨List.Pairwise.nil, rfl⟩

theorem StatementCache.WF_insert (c : StatementCache) (query : String)
    (types : List PgType) (stmt : Statement) (h : c.WF) :
    (c.insert query types stmt).WF := by
  obtain ⟨hpw, hsz⟩ := h
  cases hm : mapFind c.map ⟨Cow.owned query, Cow.owned types⟩ with
  | some s0 =>
      simp only [StatementCache.insert, hm]
      refine ⟨?_, by simpa using hsz⟩
      rw [List.pairwise_map]
      apply hpw.imp
      intro a b hab
      have hfst : ∀ p : StatementCacheKey × Statement,
          (if StatementCacheKey.beq p.1 ⟨Cow.owned query, Cow.owned types⟩
            then (p.1, stmt) else p).1 = p.1 := by
        intro p
        by_cases hb : StatementCacheKey.beq p.1 ⟨Cow.owned query, Cow.owned types⟩ = true <;>
          simp [hb]
      rw [hfst, hfst]
      exact hab
  | none =>
      simp only [StatementCache.insert, hm]
      have hfind : c.map.find?
          (fun p => StatementCacheKey.beq p.1 ⟨Cow.owned query, Cow.owned types⟩) = none := by
        simpa [mapFind] using hm
      refine ⟨List.pairwise_cons.mpr ⟨?_, hpw⟩, by simp [hsz]⟩
      intro b hb
      have := List.find?_eq_none.mp hfind b hb
      rw [StatementCacheKey.beq_comm]
      simpa using this

theorem StatementCache.WF_remove (c : StatementCache) (query : String)
    (types : List PgType) (h : c.WF) :
    ((c.remove query types).2).WF := by
  obtain ⟨hpw, hsz⟩ := h
  cases hm : mapFind c.map ⟨Cow.owned query, Cow.owned types⟩ with
  | none =>
      simp only [StatementCache.remove, hm]
      exact ⟨hpw, hsz⟩
  | some s0 =>
      simp only [StatementCache.remove, hm]
      constructor
      · exact List.Pairwise.sublist (List.eraseP_sublist _) hpw
      · have hf : ∃ e, c.map.find?
            (fun p => StatementCacheKey.beq p.1 ⟨Cow.owned query, Cow.owned types⟩)
              = some e := by
          cases hf : c.map.find?
              (fun p => StatementCacheKey.beq p.1 ⟨Cow.owned query, Cow.owned types⟩) with
          | none => simp [mapFind, hf] at hm
          | some e => exact ⟨e, rfl⟩
        obtain ⟨e, he⟩ := hf
        rw [List.length_eraseP_of_mem (List.mem_of_find?_eq_some he)
          (List.find?_some he), hsz]

theorem StatementCache.size_pos_of_get_isSome (c : StatementCache) (query : String)
    (types : List PgType) (h : c.WF) (hs : (c.get query types).isSome) :
    1 ≤ c.size := by
  obtain ⟨_, hsz⟩ := h
  rw [StatementCache.get_eq_mapFind_owned] at hs
  cases hm : mapFind c.map ⟨Cow.owned query, Cow.owned types⟩ with
  | none => rw [hm] at hs; simp at hs
  | some s0 =>
      cases hmap : c.map with
      | nil => rw [hmap] at hm; simp [mapFind] at hm
      | cons p m => rw [hsz, hmap]; simp

/-- Number of distinct keys currently in the map (keys compared by their
content, which is how `StatementCacheKey` equality compares them). -/
def distinctKeyCount (c : StatementCache) : Nat :=
  ((c.map.map (fun p => p.1.repr)).dedup).length

theorem StatementCache.size_eq_distinctKeyCount (c : StatementCache) (h : c.WF) :
    c.size = distinctKeyCount c := by
  obtain ⟨hpw, hsz⟩ := h
  have hnodup : (c.map.map (fun p => p.1.repr)).Nodup := by
    simp only [List.Nodup, List.pairwise_map]
    apply hpw.imp
    intro a b hab hrepr
    have : StatementCacheKey.beq a.1 b.1 = true :=
      (StatementCacheKey.beq_iff_repr a.1 b.1).mpr hrepr
    rw [hab] at this
    exact Bool.false_ne_true this
  rw [distinctKeyCount, List.dedup_eq_self.mpr hnodup, List.length_map]
  exact hsz

/-- One sequential operation against a statement cache. -/
inductive CacheOp where
  | ins (query : String) (types : List PgType) (stmt : Statement)
  | rem (query : String) (types : List PgType)
  | clr
deriving Repr, DecidableEq

/-- Apply one cache operation (the state effect of `insert`/`remove`/`clear`). -/
def applyOp (c : StatementCache) : CacheOp → StatementCache
  | .ins query types stmt => c.insert query types stmt
  | .rem query types => (c.remove query types).2
  | .clr => c.clear

/-- Run a sequence of cache operations starting from a freshly created cache. -/
def runOps (ops : List CacheOp) : StatementCache :=
  ops.foldl applyOp StatementCache.new

theorem StatementCache.WF_applyOp (c : StatementCache) (op : CacheOp) (h : c.WF) :
    (applyOp c op).WF := by
  cases op with
  | ins query types stmt => exact StatementCache.WF_insert c query types stmt h
  | rem query types => exact StatementCache.WF_remove c query types h
  | clr => exact StatementCache.WF_clear c

theorem StatementCache.WF_runOps (ops : List CacheOp) : (runOps ops).WF := by
  suffices hgen : ∀ c : StatementCache, c.WF → (ops.foldl applyOp c).WF from
    hgen StatementCache.new StatementCache.WF_new
  induction ops with
  | nil => intro c hc; exact hc
  | cons op ops ih =>
      intro c hc
      exact ih (applyOp c op) (StatementCache.WF_applyOp c op hc)

/-! ### Helper lemmas about the weak-reference registry -/

theorem upgrade_cons (p : CacheId × StatementCache) (w : CacheWorld) (id : CacheId) :
    upgrade (p :: w) id = if p.1 = id then some p.2 else upgrade w id := by
  by_cases h : p.1 = id <;> simp [upgrade, List.find?_cons, h]

theorem clearLive_cons (p : CacheId × StatementCache) (w : CacheWorld) (j : CacheId) :
    clearLive (p :: w) j
      = (if p.1 == j then (p.1, p.2.clear) else p) :: clearLive w j := rfl

theorem StatementCache.clear_clear (c : StatementCache) : c.clear.clear = c.clear := rfl

theorem upgrade_clearLive (world : CacheWorld) (j id : CacheId) :
    upgrade (clearLive world j) id =
      if id = j then (upgrade world id).map StatementCache.clear
      else upgrade world id := by
  induction world with
  | nil => by_cases h : id = j <;> simp [upgrade, clearLive, h]
  | cons p w ih =>
      rw [clearLive_cons]
      by_cases hpj : p.1 = j
      · by_cases hpi : p.1 = id
        · have hij : id = j := hpi ▸ hpj
          subst hij
          simp [upgrade_cons, hpj, hpi, ih]
        · have hij : ¬ id = j := fun hh => hpi (hpj.trans hh.symm)
          have hji : ¬ j = id := fun hh => hij hh.symm
          simp [upgrade_cons, hpj, hpi, hij, hji, ih]
      · by_cases hpi : p.1 = id
        · have hij : ¬ id = j := fun hh => hpj (hpi.trans hh)
          simp [upgrade_cons, hpj, hpi, hij, ih]
        · by_cases hij : id = j
          · subst hij
            simp [upgrade_cons, hpj, hpi, ih]
          · simp [upgrade_cons, hpj, hpi, hij, ih]

theorem upgrade_foldl_clearLive (refs : List CacheId) (world : CacheWorld) (id : CacheId) :
    upgrade (refs.foldl clearLive world) id =
      if id ∈ refs then (upgrade world id).map StatementCache.clear
      else upgrade world id := by
  induction refs generalizing world with
  | nil => simp
  | cons j refs ih =>
      rw [List.foldl_cons, ih, upgrade_clearLive]
      by_cases hij : id = j <;> by_cases hmem : id ∈ refs <;>
        simp [hij, hmem, Option.map_map, Function.comp_def,
          StatementCache.clear_clear]

/-! ### Claim theorems -/

/-- C1: for every client whose `is_closed()` returns true, `Manager::recycle`
fails with the "Connection closed" message regardless of the configured
recycling method, and executes no query against the connection. -/
theorem recycle_closed_fails (method : RecyclingMethod) (client : PgClient)
    (h : client.is_closed = true) :
    Manager.recycle method client
      = (Except.error (RecycleError.message "Connection closed"), []) := by
  simp [Manager.recycle, h]

theorem recycle_closed_fails_witness :
    (PgClient.mk true (fun _ => Except.ok ()) (fun _ _ => Except.ok 0)).is_closed = true ∧
    Manager.recycle RecyclingMethod.verified
        (PgClient.mk true (fun _ => Except.ok ()) (fun _ _ => Except.ok 0))
      = (Except.error (RecycleError.message "Connection closed"), []) :=
  ⟨rfl, recycle_closed_fails RecyclingMethod.verified
    (PgClient.mk true (fun _ => Except.ok ()) (fun _ _ => Except.ok 0)) rfl⟩

/-- C2: for every client whose `is_closed()` returns false, `Manager::recycle`
consults the configured recycling method: `Fast` (the only method with no
probe query) executes nothing and succeeds unconditionally; every other
method executes its designated statement exactly once, succeeding iff that
execution succeeds and otherwise failing with the execution's error wrapped
as the recycle failure; the probe is never retried. -/
theorem recycle_open_follows_method (method : RecyclingMethod) (client : PgClient)
    (h : client.is_closed = false) :
    (method.query = none ↔ method = RecyclingMethod.fast) ∧
    Manager.recycle method client =
      (match method.query with
       | none => (Except.ok (), [])
       | some sql =>
          match client.simple_query sql with
          | Except.ok _ => (Except.ok (), [sql])
          | Except.error e => (Except.error (RecycleError.backend e), [sql])) := by
  constructor
  · cases method <;> simp [RecyclingMethod.query]
  · cases hq : method.query <;> simp [Manager.recycle, h, hq]

theorem recycle_open_follows_method_witness :
    Manager.recycle (RecyclingMethod.custom "SELECT 1")
        (PgClient.mk false (fun _ => Except.error "probe failed") (fun _ _ => Except.ok 0))
      = (Except.error (RecycleError.backend "probe failed"), ["SELECT 1"]) :=
  (recycle_open_follows_method (RecyclingMethod.custom "SELECT 1")
    (PgClient.mk false (fun _ => Except.error "probe failed") (fun _ _ => Except.ok 0))
    rfl).2

/-- C3: if a `prepare_typed` call on a wrapper returns a statement
successfully, then the immediately following `prepare_typed` call for the
same `(query, types)` pair returns the identical cached handle, leaves the
cache unchanged, and performs no call to the underlying client's prepare. -/
theorem prepare_typed_second_call_cached (client : PgClient) (cache : StatementCache)
    (query : String) (types : List PgType) (s : Statement) (c2 : StatementCache)
    (n : Nat)
    (h : ClientWrapper.prepare_typed client cache query types = (Except.ok s, c2, n)) :
    ClientWrapper.prepare_typed client c2 query types = (Except.ok s, c2, 0) := by
  cases hg : cache.get query types with
  | some s0 =>
      have hfirst : ClientWrapper.prepare_typed client cache query types
          = (Except.ok s0, cache, 0) := by
        simp [ClientWrapper.prepare_typed, hg]
      rw [hfirst] at h
      simp only [Prod.mk.injEq, Except.ok.injEq] at h
      obtain ⟨hs, hc, -⟩ := h
      subst hs
      subst hc
      simp [ClientWrapper.prepare_typed, hg]
  | none =>
      cases hp : client.prepare_typed query types with
      | ok stmt =>
          have hfirst : ClientWrapper.prepare_typed client cache query types
              = (Except.ok stmt, cache.insert query types stmt, 1) := by
            simp [ClientWrapper.prepare_typed, hg, hp]
          rw [hfirst] at h
          simp only [Prod.mk.injEq, Except.ok.injEq] at h
          obtain ⟨hs, hc, -⟩ := h
          subst hs
          subst hc
          simp [ClientWrapper.prepare_typed, StatementCache.get_insert_self]
      | error e =>
          have hfirst : ClientWrapper.prepare_typed client cache query types
              = (Except.error e, cache, 1) := by
            simp [ClientWrapper.prepare_typed, hg, hp]
          rw [hfirst] at h
          simp at h

theorem prepare_typed_second_call_cached_witness :
    ClientWrapper.prepare_typed
        (PgClient.mk false (fun _ => Except.ok ()) (fun _ _ => Except.ok 42))
        (StatementCache.new.insert "SELECT 1" [] 42) "SELECT 1" []
      = (Except.ok 42, StatementCache.new.insert "SELECT 1" [] 42, 0) :=
  prepare_typed_second_call_cached
    (PgClient.mk false (fun _ => Except.ok ()) (fun _ _ => Except.ok 42))
    StatementCache.new "SELECT 1" [] 42 (StatementCache.new.insert "SELECT 1" [] 42) 1
    rfl

/-- C4: on a cache miss, if the underlying prepare fails, then both
`ClientWrapper::prepare_typed` and `Transaction::prepare_typed` return that
error unchanged and leave the statement cache unmodified (the error result
carries the original cache, so no entry is inserted and the size is
unchanged), and the one underlying prepare call was made, so a subsequent
call retries it. -/
theorem prepare_typed_error_propagates_uncached (client : PgClient)
    (txn : PgTransaction) (cache : StatementCache) (query : String)
    (types : List PgType) (e : Error)
    (hmiss : cache.get query types = none)
    (herrc : client.prepare_typed query types = Except.error e)
    (herrt : txn.prepare_typed query types = Except.error e) :
    ClientWrapper.prepare_typed client cache query types = (Except.error e, cache, 1) ∧
    Transaction.prepare_typed txn cache query types = (Except.error e, cache, 1) := by
  constructor
  · simp [ClientWrapper.prepare_typed, hmiss, herrc]
  · simp [Transaction.prepare_typed, hmiss, herrt]

theorem prepare_typed_error_propagates_uncached_witness :
    ClientWrapper.prepare_typed
        (PgClient.mk false (fun _ => Except.ok ()) (fun _ _ => Except.error "boom"))
        StatementCache.new "SELECT 1" []
      = (Except.error "boom", StatementCache.new, 1) ∧
    Transaction.prepare_typed (PgTransaction.mk (fun _ _ => Except.error "boom"))
        StatementCache.new "SELECT 1" []
      = (Except.error "boom", StatementCache.new, 1) :=
  prepare_typed_error_propagates_uncached
    (PgClient.mk false (fun _ => Except.ok ()) (fun _ _ => Except.error "boom"))
    (PgTransaction.mk (fun _ _ => Except.error "boom"))
    StatementCache.new "SELECT 1" [] "boom" rfl rfl rfl

/-- C5: `insert` increments the size counter by exactly 1 when the key was
not previously present and leaves it unchanged when it overwrites an
existing key. -/
theorem insert_size_spec (cache : StatementCache) (query : String)
    (types : List PgType) (stmt : Statement) :
    (cache.insert query types stmt).size =
      if (cache.get query types).isSome then cache.size else cache.size + 1 :=
  StatementCache.insert_size cache query types stmt

/-- C6: on a well-formed (reachable) cache, `remove` returns exactly what
`get` sees: the evicted handle, with the size counter decremented by exactly
1, when the key is present; and `none`, with the cache (hence its size)
unchanged, when the key is absent. -/
theorem remove_size_spec (cache : StatementCache) (query : String)
    (types : List PgType) (h : cache.WF) :
    (cache.remove query types).1 = cache.get query types ∧
    ((cache.get query types).isSome →
        (cache.remove query types).2.size + 1 = cache.size) ∧
    (cache.get query types = none → (cache.remove query types).2 = cache) := by
  refine ⟨StatementCache.remove_fst cache query types, ?_, ?_⟩
  · intro hs
    have h1 := StatementCache.size_pos_of_get_isSome cache query types h hs
    rw [StatementCache.get_eq_mapFind_owned] at hs
    cases hm : mapFind cache.map ⟨Cow.owned query, Cow.owned types⟩ with
    | none => rw [hm] at hs; simp at hs
    | some s0 =>
        simp only [StatementCache.remove, hm]
        omega
  · intro hs
    rw [StatementCache.get_eq_mapFind_owned] at hs
    simp [StatementCache.remove, hs]

theorem remove_size_spec_witness :
    ((StatementCache.new.insert "SELECT 2" [] 5).remove "SELECT 2" []).1
      = (StatementCache.new.insert "SELECT 2" [] 5).get "SELECT 2" [] ∧
    ((StatementCache.new.insert "SELECT 2" [] 5).remove "SELECT 2" []).2.size + 1
      = (StatementCache.new.insert "SELECT 2" [] 5).size := by
  have h := remove_size_spec (StatementCache.new.insert "SELECT 2" [] 5) "SELECT 2" []
    (StatementCache.WF_insert StatementCache.new "SELECT 2" [] 5 StatementCache.WF_new)
  exact ⟨h.1, h.2.1 (by decide)⟩

/-- C7: after any sequence of cache operations starting from a new cache,
the stored size counter equals the number of distinct keys currently in the
map; and `clear` empties the map and resets the counter to zero. -/
theorem cache_size_invariant (ops : List CacheOp) :
    (runOps ops).size = distinctKeyCount (runOps ops) ∧
    (runOps ops).clear.map = [] ∧ (runOps ops).clear.size = 0 :=
  ⟨StatementCache.size_eq_distinctKeyCount (runOps ops)
    (StatementCache.WF_runOps ops), rfl, rfl⟩

/-- C8: `StatementCaches::clear` clears exactly the caches that are attached
(recorded in the registry) and still resolvable: a live attached cache
resolves to its cleared state (empty map, size 0) afterwards, a live cache
that is not attached — in particular one detached beforehand — is untouched,
and a dead reference (a dropped wrapper) still resolves to nothing, causing
no error. -/
theorem caches_clear_exactly_attached_live (r : StatementCaches) (world : CacheWorld)
    (id : CacheId) :
    upgrade (r.clear world) id =
      (if id ∈ r.caches then (upgrade world id).map StatementCache.clear
       else upgrade world id) ∧
    upgrade ((r.detach id).clear world) id = upgrade world id := by
  constructor
  · exact upgrade_foldl_clearLive r.caches world id
  · rw [StatementCaches.clear, upgrade_foldl_clearLive, if_neg]
    simp [StatementCaches.detach]

/-- C9: a transaction shares the parent wrapper's statement cache: any
statement already cached on the wrapper is returned by the transaction's
`prepare_typed` with no call to the underlying prepare, and a statement the
transaction prepares on a miss lands in the shared cache, where the
wrapper's `get` sees it. -/
theorem transaction_shares_parent_cache (txn : PgTransaction)
    (cache : StatementCache) (query : String) (types : List PgType) :
    (∀ s : Statement, cache.get query types = some s →
        Transaction.prepare_typed txn cache query types = (Except.ok s, cache, 0)) ∧
    (∀ stmt : Statement, cache.get query types = none →
        txn.prepare_typed query types = Except.ok stmt →
        Transaction.prepare_typed txn cache query types
            = (Except.ok stmt, cache.insert query types stmt, 1) ∧
        (cache.insert query types stmt).get query types = some stmt) := by
  constructor
  · intro s hs
    simp [Transaction.prepare_typed, hs]
  · intro stmt hnone hok
    exact ⟨by simp [Transaction.prepare_typed, hnone, hok],
      StatementCache.get_insert_self cache query types stmt⟩

theorem transaction_shares_parent_cache_witness :
    Transaction.prepare_typed (PgTransaction.mk (fun _ _ => Except.ok 0))
        (StatementCache.new.insert "SELECT 3" [] 7) "SELECT 3" []
      = (Except.ok 7, StatementCache.new.insert "SELECT 3" [] 7, 0) :=
  (transaction_shares_parent_cache (PgTransaction.mk (fun _ _ => Except.ok 0))
    (StatementCache.new.insert "SELECT 3" [] 7) "SELECT 3" []).1 7 (by decide)

/-- C10: `get` immediately after `insert` of the same `(query, types)` pair
returns the inserted statement: the lookup built from borrowed `Cow`s finds
the entry stored under owned `Cow`s, because key equality is structural over
the `Cow` contents. -/
theorem get_after_insert (cache : StatementCache) (query : String)
    (types : List PgType) (stmt : Statement) :
    (cache.insert query types stmt).get query types = some stmt :=
  StatementCache.get_insert_self cache query types stmt

end DeadpoolPostgres
